import Mathlib

/-!
# Verification of the tech-skills-gap analysis engine

Shallow embedding of `src/skills_gap_analysis.py` (pandas) and proofs of the
specification claims about it.

Modelling conventions:
* A pandas cell value is a `Value`: a number, a piece of text, or NaN/missing
  (`Value.null`).  `pd.to_numeric(..., errors="coerce")` is `to_numeric`;
  text that would parse as a number is modelled as already being `Value.num`,
  so `Value.str` covers exactly the non-numeric text cells.
* Key/text columns that the claims never treat as missing (`employee_id`,
  `rol_actual`, `skill_name`, ...) are modelled as `String` fields.
* A pandas DataFrame is a `List` of records; `merge(..., how="left")` is the
  ordered left join: for each left row, one output row per matching right row,
  or a single row with null right-hand fields when there is no match.
* `sort_values` is called by the source with its default `kind` (quicksort),
  which pandas does not document as stable, so the program does not fix the
  relative order of tied rows.  The model determinizes each such sort as
  `List.insertionSort`; only consequences that are the same for every order
  among ties are claimed of the program, and tie-order properties are left
  unsettled.
* `groupby(col)` enumerates the distinct non-null keys in ascending order.
* Exact rationals stand in for float64; `Series.round(1)` is `round1`
  (round half to even, as numpy does).
* The in-place write `formaciones["duration_hours"] = pd.to_numeric(...)`
  (line 186) is modelled by state passing: `recomendaciones_formacion`
  returns the final state of its `formaciones` argument with its result.
-/

/-- A pandas cell: a number, non-numeric text, or NaN/missing. -/
inductive Value where
  | num (q : ℚ)
  | str (s : String)
  | null
deriving DecidableEq

/-- `pd.to_numeric(..., errors="coerce")` on one cell: numbers stay, anything
else (text, NaN) becomes missing. -/
def to_numeric : Value → Option ℚ
  | .num q => some q
  | .str _ => none
  | .null => none

/-- A row of `empleados_tech.csv`. -/
structure Empleado where
  employee_id : String
  nombre : String
  apellido : String
  rol_actual : String
deriving DecidableEq

/-- A row of `skills_tech_empleados.csv`. -/
structure SkillEmpleado where
  employee_id : String
  skill_name : String
  skill_level : Value
deriving DecidableEq

/-- A row of `skills_tech_roles.csv`. -/
structure SkillRol where
  rol : String
  skill_name : String
  required_level : Value
  weight : Value
deriving DecidableEq

/-- A row of `formaciones_tech.csv`. -/
structure Formacion where
  course_id : String
  skill_name : String
  course_name : String
  provider : String
  duration_hours : Value
  modality : String
deriving DecidableEq

/-- A row of `empleados.merge(skills_empleados, on="employee_id", how="left")`:
employee fields plus the matched skill record's fields, which are NaN
(`none`) for an employee with no skill records. -/
structure FilaEmpSkill where
  employee_id : String
  nombre : String
  apellido : String
  rol_actual : String
  skill_name : Option String
  skill_level : Option Value
deriving DecidableEq

/-- A row after the second merge with `skills_roles`; `required_level` and
`weight` are the matched requirement's raw cells, or NaN when unmatched. -/
structure FilaCompleta where
  employee_id : String
  nombre : String
  apellido : String
  rol_actual : String
  skill_name : Option String
  skill_level : Option Value
  required_level : Option Value
  weight : Option Value
deriving DecidableEq

/-- An output row of `calcular_gaps` (after numeric coercion, the gap/severity
formulas, and `weight.fillna(1)`). -/
structure GapRecord where
  employee_id : String
  nombre : String
  apellido : String
  rol_actual : String
  skill_name : Option String
  skill_level : Option ℚ
  required_level : Option ℚ
  gap : Option ℚ
  weight : Option ℚ
  gap_severity : ℚ
deriving DecidableEq

/-- Line 54: `empleados.merge(skills_empleados, on="employee_id", how="left")`. -/
def merge_empleados_skills (empleados : List Empleado)
    (skills_empleados : List SkillEmpleado) : List FilaEmpSkill :=
  empleados.flatMap fun e =>
    let ms := skills_empleados.filter (fun s => s.employee_id == e.employee_id)
    if ms.isEmpty then
      [{ employee_id := e.employee_id, nombre := e.nombre,
         apellido := e.apellido, rol_actual := e.rol_actual,
         skill_name := none, skill_level := none }]
    else ms.map fun s =>
      { employee_id := e.employee_id, nombre := e.nombre,
        apellido := e.apellido, rol_actual := e.rol_actual,
        skill_name := some s.skill_name, skill_level := some s.skill_level }

/-- Line 61: `df.merge(skills_roles, left_on=["rol_actual","skill_name"],
right_on=["rol","skill_name"], how="left")`.  A NaN `skill_name` (employee
with no skill records) matches no requirement. -/
def merge_roles (filas : List FilaEmpSkill) (skills_roles : List SkillRol) :
    List FilaCompleta :=
  filas.flatMap fun r =>
    let ms := skills_roles.filter
      (fun q => q.rol == r.rol_actual && (some q.skill_name == r.skill_name))
    if ms.isEmpty then
      [{ employee_id := r.employee_id, nombre := r.nombre,
         apellido := r.apellido, rol_actual := r.rol_actual,
         skill_name := r.skill_name, skill_level := r.skill_level,
         required_level := none, weight := none }]
    else ms.map fun q =>
      { employee_id := r.employee_id, nombre := r.nombre,
        apellido := r.apellido, rol_actual := r.rol_actual,
        skill_name := r.skill_name, skill_level := r.skill_level,
        required_level := some q.required_level, weight := some q.weight }

/-- Lines 70-84 applied to one merged row: numeric coercion of `skill_level`,
`required_level`, `weight`; `gap = required_level - skill_level` (NaN if an
operand is missing); `weight = weight.fillna(1)`;
`gap_severity = gap * weight if notna(gap) and gap > 0 else 0`. -/
def fila_a_gap (r : FilaCompleta) : GapRecord :=
  let skill_level := r.skill_level.bind to_numeric
  let required_level := r.required_level.bind to_numeric
  let weight0 := r.weight.bind to_numeric
  let gap : Option ℚ :=
    match required_level, skill_level with
    | some a, some b => some (a - b)
    | _, _ => none
  { employee_id := r.employee_id, nombre := r.nombre, apellido := r.apellido,
    rol_actual := r.rol_actual, skill_name := r.skill_name,
    skill_level := skill_level, required_level := required_level,
    gap := gap, weight := some (weight0.getD 1),
    gap_severity :=
      match gap with
      | some g => if 0 < g then g * weight0.getD 1 else 0
      | none => 0 }

/-- Lines 41-90: `calcular_gaps(empleados, skills_roles, skills_empleados)`. -/
def calcular_gaps (empleados : List Empleado) (skills_roles : List SkillRol)
    (skills_empleados : List SkillEmpleado) : List GapRecord :=
  (merge_roles (merge_empleados_skills empleados skills_empleados) skills_roles).map
    fila_a_gap

/-- Computable floor of a rational. -/
def qfloor (q : ℚ) : ℤ := Int.fdiv q.num q.den

/-- Round to the nearest integer, half to even (numpy/pandas rounding). -/
def round_half_even (q : ℚ) : ℤ :=
  let n := qfloor q
  let frac := q - n
  if frac < 1/2 then n
  else if 1/2 < frac then n + 1
  else if n % 2 == 0 then n else n + 1

/-- `Series.round(1)`: round to one decimal place, half to even. -/
def round1 (q : ℚ) : ℚ := ((round_half_even (q * 10) : ℚ)) / 10

/-- pandas `drop_duplicates` / the distinct keys of a `groupby`: keep the
first occurrence of each element. -/
def drop_duplicates {α : Type} [DecidableEq α] : List α → List α
  | [] => []
  | x :: xs => x :: drop_duplicates (xs.filter (fun y => y != x))
termination_by l => l.length
decreasing_by
  simp only [List.length_cons]
  exact Nat.lt_succ_of_le (List.length_filter_le _ _)

/-- Line 108's per-group lambda `(x > 0).any() if x.notna().any() else False`,
applied to the `gap` series of one employee (NaN > 0 is False in pandas). -/
def tiene_gap_serie (gaps : List (Option ℚ)) : Bool :=
  if gaps.any (fun g => g.isSome) then
    gaps.any (fun g => match g with | some x => decide (0 < x) | none => false)
  else false

/-- Lines 105-110: `df_gaps.groupby("employee_id")["gap"].apply(...)` —
distinct employee ids in ascending order, each with its has-a-gap flag. -/
def empleados_gap (df : List GapRecord) : List (String × Bool) :=
  (List.insertionSort (· ≤ ·) (drop_duplicates (df.map (fun r => r.employee_id)))).map
    fun e => (e, tiene_gap_serie ((df.filter (fun r => r.employee_id == e)).map (fun r => r.gap)))

/-- An output row of `resumen_por_rol`. -/
structure ResumenRol where
  rol_actual : String
  n_empleados : ℕ
  n_con_gap : ℕ
  porcentaje_con_gap : ℚ
  gap_severity_promedio : ℚ
deriving DecidableEq

/-- Lines 112-113: `df_emp` — the de-duplicated (employee, role) pairs, each
merged (`how="left"` on `employee_id`) with its per-employee has-a-gap flag. -/
def df_empleados_rol (df : List GapRecord) : List (String × String × Bool) :=
  (drop_duplicates (df.map fun r => (r.employee_id, r.rol_actual))).map fun p =>
    (p.1, p.2,
      ((((empleados_gap df).find? (fun q => q.1 == p.1)).map (fun q => q.2)).getD false))

/-- Lines 115-136: the summary row of one role — distinct-employee count,
count of employees whose flag is True, `round(n_con_gap / n_empleados * 100, 1)`,
and the mean of `gap_severity` over all of the role's gap rows. -/
def resumen_de_rol (df : List GapRecord) (rol : String) : ResumenRol :=
  let grp := (df_empleados_rol df).filter fun t => t.2.1 == rol
  let n_emp := (drop_duplicates (grp.map fun t => t.1)).length
  let n_gap := grp.countP fun t => t.2.2 == true
  let sevs := (df.filter fun r => r.rol_actual == rol).map fun r => r.gap_severity
  { rol_actual := rol, n_empleados := n_emp, n_con_gap := n_gap,
    porcentaje_con_gap := round1 ((n_gap : ℚ) / (n_emp : ℚ) * 100),
    gap_severity_promedio := sevs.sum / (sevs.length : ℚ) }

/-- Lines 96-138: `resumen_por_rol(df_gaps)` — one summary row per distinct
role, roles in ascending order (as `groupby` yields them). -/
def resumen_por_rol (df : List GapRecord) : List ResumenRol :=
  (List.insertionSort (· ≤ ·)
    (drop_duplicates ((df_empleados_rol df).map fun t => t.2.1))).map (resumen_de_rol df)

/-- The descending order on (skill, total severity) used by line 152's
`sort_values("gap_severity", ascending=False)`. -/
def sev_desc (a b : String × ℚ) : Prop := b.2 ≤ a.2

instance : DecidableRel sev_desc := fun a b => inferInstanceAs (Decidable (b.2 ≤ a.2))

instance : IsTotal (String × ℚ) sev_desc := ⟨fun a b => le_total b.2 a.2⟩

instance : IsTrans (String × ℚ) sev_desc := ⟨fun _ _ _ h1 h2 => le_trans h2 h1⟩

/-- Lines 148-151: `df_gaps.groupby("skill_name")["gap_severity"].sum()` —
distinct non-null skills in ascending order with their severity sums
(`groupby` drops NaN keys). -/
def severidad_por_skill (df : List GapRecord) : List (String × ℚ) :=
  (List.insertionSort (· ≤ ·) (drop_duplicates (df.filterMap (fun r => r.skill_name)))).map
    fun s => (s, ((df.filter (fun r => r.skill_name == some s)).map (fun r => r.gap_severity)).sum)

/-- Lines 144-155: `skills_mas_criticas(df_gaps, top_n)`.  Line 152's
`sort_values(ascending=False)` uses the default quicksort, which pandas does
not document as stable; the `insertionSort` here is the model's
determinization of it, and only consequences independent of the order among
equal-severity entries are claimed of the program. -/
def skills_mas_criticas (df : List GapRecord) (top_n : ℕ := 10) : List (String × ℚ) :=
  (List.insertionSort sev_desc (severidad_por_skill df)).take top_n

/-- Line 173's mask `df_gaps["gap"] > 0` (NaN > 0 is False). -/
def gap_positivo (r : GapRecord) : Bool :=
  match r.gap with | some g => decide (0 < g) | none => false

/-- One cell of line 186: coerced `duration_hours`. -/
def numify (v : Value) : Value :=
  match to_numeric v with | some q => .num q | none => .null

/-- Line 186 applied to one course row. -/
def coerce_duration (c : Formacion) : Formacion :=
  { c with duration_hours := numify c.duration_hours }

/-- Comparison used by line 192's `sort_values("duration_hours")`: numeric
durations ascending, NaN after every number (na_position="last"). -/
def dur_leB (a b : Formacion) : Bool :=
  match to_numeric a.duration_hours, to_numeric b.duration_hours with
  | some x, some y => decide (x ≤ y)
  | some _, none => true
  | none, some _ => false
  | none, none => true

def dur_le (a b : Formacion) : Prop := dur_leB a b = true

instance : DecidableRel dur_le := fun a b => inferInstanceAs (Decidable (_ = true))

instance : IsTotal Formacion dur_le :=
  ⟨fun a b => by
    unfold dur_le dur_leB
    rcases to_numeric a.duration_hours with _ | x <;>
      rcases to_numeric b.duration_hours with _ | y <;> simp
    exact le_total x y⟩

instance : IsTrans Formacion dur_le :=
  ⟨fun a b c => by
    unfold dur_le dur_leB
    rcases to_numeric a.duration_hours with _ | x <;>
      rcases to_numeric b.duration_hours with _ | y <;>
        rcases to_numeric c.duration_hours with _ | z <;> simp
    exact le_trans⟩

/-- Lines 190-201: `groupby("skill_name", as_index=False).head(1)` — the first
row of each skill group, in the frame's current order. -/
def primera_por_skill : List Formacion → List Formacion
  | [] => []
  | c :: cs => c :: primera_por_skill (cs.filter (fun c2 => c2.skill_name != c.skill_name))
termination_by l => l.length
decreasing_by
  simp only [List.length_cons]
  exact Nat.lt_succ_of_le (List.length_filter_le _ _)

/-- An output row of `recomendaciones_formacion` (the 13 fixed columns). -/
structure Recomendacion where
  employee_id : String
  nombre : String
  apellido : String
  rol_actual : String
  skill_name : Option String
  skill_level : Option ℚ
  required_level : Option ℚ
  gap : Option ℚ
  course_id : Option String
  course_name : Option String
  provider : Option String
  duration_hours : Option ℚ
  modality : Option String
deriving DecidableEq

/-- One output row: a qualifying gap row with the matched course's fields
attached (all null when no course matched). -/
def fila_rec (r : GapRecord) (c : Option Formacion) : Recomendacion :=
  { employee_id := r.employee_id, nombre := r.nombre, apellido := r.apellido,
    rol_actual := r.rol_actual, skill_name := r.skill_name,
    skill_level := r.skill_level, required_level := r.required_level,
    gap := r.gap,
    course_id := c.map (fun f => f.course_id),
    course_name := c.map (fun f => f.course_name),
    provider := c.map (fun f => f.provider),
    duration_hours := c.bind (fun f => to_numeric f.duration_hours),
    modality := c.map (fun f => f.modality) }

/-- Lines 204-208: `df_need.merge(cursos_por_skill, on="skill_name",
how="left")`. -/
def merge_cursos (necesita : List GapRecord) (cursos : List Formacion) :
    List Recomendacion :=
  necesita.flatMap fun r =>
    let ms := cursos.filter (fun c => some c.skill_name == r.skill_name)
    if ms.isEmpty then [fila_rec r none]
    else ms.map fun c => fila_rec r (some c)

/-- Ascending comparison on optional strings, NaN last. -/
def opt_str_le (a b : Option String) : Bool :=
  match a, b with
  | some x, some y => decide (x ≤ y)
  | some _, none => true
  | none, some _ => false
  | none, none => true

/-- Line 228's `sort_values(["employee_id", "skill_name"])`. -/
def rec_le (a b : Recomendacion) : Prop :=
  (if a.employee_id = b.employee_id then opt_str_le a.skill_name b.skill_name
   else decide (a.employee_id ≤ b.employee_id)) = true

instance : DecidableRel rec_le := fun a b => inferInstanceAs (Decidable (_ = true))

/-- Lines 161-230: `recomendaciones_formacion(df_gaps, formaciones)`.  The
first component is the final state of the `formaciones` argument (line 186
overwrites its `duration_hours` column in place — only reached when some row
qualifies); the second is the returned table.  The `sort_values` calls of
lines 192 and 228 use the default quicksort, which pandas does not document
as stable; the `insertionSort`s here are the model's determinization of
them, and only consequences independent of the order among tied rows are
claimed of the program. -/
def recomendaciones_formacion (df_gaps : List GapRecord)
    (formaciones : List Formacion) : List Formacion × List Recomendacion :=
  let df_need := df_gaps.filter gap_positivo
  if df_need.isEmpty then (formaciones, [])
  else
    let formaciones2 := formaciones.map coerce_duration
    let cursos_por_skill := primera_por_skill (List.insertionSort dur_le formaciones2)
    (formaciones2, List.insertionSort rec_le (merge_cursos df_need cursos_por_skill))

/-- A DataFrame with dynamic columns: the column names and the rows as
(column, cell) association lists. -/
structure Frame where
  cols : List String
  rows : List (List (String × Value))
deriving DecidableEq

/-- `df[c] = f(row)`: replace column `c` when present, else append it. -/
def set_col (fr : Frame) (c : String) (f : List (String × Value) → Value) : Frame :=
  if fr.cols.contains c then
    { fr with rows := fr.rows.map (fun row =>
        row.map (fun p => if p.1 == c then (p.1, f row) else p)) }
  else
    { cols := fr.cols ++ [c], rows := fr.rows.map (fun row => row ++ [(c, f row)]) }

theorem mem_drop_duplicates {α : Type} [DecidableEq α] {a : α} :
    ∀ {l : List α}, a ∈ drop_duplicates l ↔ a ∈ l := by
  intro l
  induction l using drop_duplicates.induct with
  | case1 => simp [drop_duplicates]
  | case2 x xs ih =>
    rw [drop_duplicates]
    simp only [List.mem_cons, ih, List.mem_filter, bne_iff_ne]
    by_cases hax : a = x <;> simp [hax]

theorem nodup_drop_duplicates {α : Type} [DecidableEq α] :
    ∀ l : List α, (drop_duplicates l).Nodup := by
  intro l
  induction l using drop_duplicates.induct with
  | case1 => rw [drop_duplicates]; exact List.nodup_nil
  | case2 x xs ih =>
    rw [drop_duplicates, List.nodup_cons]
    refine ⟨fun hx => ?_, ih⟩
    rw [mem_drop_duplicates, List.mem_filter] at hx
    exact absurd rfl (bne_iff_ne.mp hx.2)

theorem toFinset_drop_duplicates {α : Type} [DecidableEq α] (l : List α) :
    (drop_duplicates l).toFinset = l.toFinset := by
  ext a
  simp [List.mem_toFinset, mem_drop_duplicates]

theorem length_drop_duplicates {α : Type} [DecidableEq α] (l : List α) :
    (drop_duplicates l).length = l.toFinset.card := by
  rw [← List.toFinset_card_of_nodup (nodup_drop_duplicates l), toFinset_drop_duplicates]

theorem find?_eq_head?_filter {α : Type} (p : α → Bool) :
    ∀ l : List α, l.find? p = (l.filter p).head? := by
  intro l
  induction l with
  | nil => rfl
  | cons x t ih =>
    by_cases hx : p x = true
    · rw [List.find?_cons_of_pos _ hx, List.filter_cons_of_pos hx, List.head?_cons]
    · rw [List.find?_cons_of_neg _ hx, List.filter_cons_of_neg (by simpa using hx), ih]

theorem filter_eq_find?_toList {α : Type} {p : α → Bool} {l : List α}
    (h : (l.filter p).length ≤ 1) : l.filter p = (l.find? p).toList := by
  rw [find?_eq_head?_filter]
  cases hf : l.filter p with
  | nil => rfl
  | cons x t =>
    cases t with
    | nil => rfl
    | cons y s => rw [hf] at h; simp at h

theorem filter_length_le_one_of_nodup_keys {α κ : Type} [DecidableEq κ] (k : α → κ)
    {l : List α} (hn : (l.map k).Nodup) {p : α → Bool} (key : κ)
    (hp : ∀ x, p x = true → k x = key) : (l.filter p).length ≤ 1 := by
  induction l with
  | nil => simp
  | cons x t ih =>
    rw [List.map_cons, List.nodup_cons] at hn
    by_cases hx : p x = true
    · rw [List.filter_cons_of_pos hx]
      have ht : t.filter p = [] := by
        rw [List.filter_eq_nil_iff]
        intro y hy hpy
        apply hn.1
        rw [(hp x hx).trans (hp y hpy).symm]
        exact List.mem_map_of_mem k hy
      rw [ht]
      simp
    · rw [List.filter_cons_of_neg (by simpa using hx)]
      exact ih hn.2

theorem flatMap_eq_map {α β : Type} {f : α → List β} {g : α → β} :
    ∀ l : List α, (∀ r ∈ l, f r = [g r]) → l.flatMap f = l.map g := by
  intro l
  induction l with
  | nil => intro _; rfl
  | cons x t ih =>
    intro h
    rw [List.flatMap_cons, h x (List.mem_cons_self x t), List.map_cons,
      ih (fun r hr => h r (List.mem_cons_of_mem x hr))]
    rfl

/-! ## Lemmas about the per-skill course choice -/

theorem mem_primera_por_skill {c : Formacion} :
    ∀ {l : List Formacion}, c ∈ primera_por_skill l → c ∈ l := by
  intro l
  induction l using primera_por_skill.induct with
  | case1 => intro h; rw [primera_por_skill] at h; cases h
  | case2 x xs ih =>
    intro h
    rw [primera_por_skill] at h
    rcases List.mem_cons.1 h with rfl | h2
    · exact List.mem_cons_self _ _
    · exact List.mem_cons_of_mem x (List.mem_of_mem_filter (ih h2))

theorem nodup_skills_primera_por_skill :
    ∀ l : List Formacion, ((primera_por_skill l).map (fun c => c.skill_name)).Nodup := by
  intro l
  induction l using primera_por_skill.induct with
  | case1 => rw [primera_por_skill]; exact List.nodup_nil
  | case2 x xs ih =>
    rw [primera_por_skill, List.map_cons, List.nodup_cons]
    refine ⟨fun hmem => ?_, ih⟩
    obtain ⟨c2, hc2, heq⟩ := List.mem_map.1 hmem
    have h2 := mem_primera_por_skill hc2
    rw [List.mem_filter] at h2
    exact absurd heq (bne_iff_ne.mp h2.2)

/-! ## Merge characterization lemmas -/

/-- The requirement row that line 61's merge attaches to a row (unique when
requirement keys are unique). -/
def busca_requisito (skills_roles : List SkillRol) (r : FilaEmpSkill) : Option SkillRol :=
  skills_roles.find? (fun q => q.rol == r.rol_actual && (some q.skill_name == r.skill_name))

/-- A merged row as a function of the (at most one) matched requirement. -/
def fila_con_requisito (r : FilaEmpSkill) (qo : Option SkillRol) : FilaCompleta :=
  { employee_id := r.employee_id, nombre := r.nombre, apellido := r.apellido,
    rol_actual := r.rol_actual, skill_name := r.skill_name, skill_level := r.skill_level,
    required_level := qo.map (fun q => q.required_level),
    weight := qo.map (fun q => q.weight) }

theorem merge_roles_eq_map {skills_roles : List SkillRol}
    (hq : (skills_roles.map (fun q => (q.rol, q.skill_name))).Nodup)
    (filas : List FilaEmpSkill) :
    merge_roles filas skills_roles =
      filas.map (fun r => fila_con_requisito r (busca_requisito skills_roles r)) := by
  apply flatMap_eq_map
  intro r _
  have hlen : (skills_roles.filter
      (fun q => q.rol == r.rol_actual && (some q.skill_name == r.skill_name))).length ≤ 1 := by
    cases hrs : r.skill_name with
    | none =>
      have hnil : skills_roles.filter
          (fun q => q.rol == r.rol_actual && (some q.skill_name == none)) = [] := by
        rw [List.filter_eq_nil_iff]
        intro q _ hc
        simp at hc
      rw [hnil]
      simp
    | some sn =>
      refine filter_length_le_one_of_nodup_keys (fun q => (q.rol, q.skill_name)) hq
        (r.rol_actual, sn) ?_
      intro q hc
      simp only [Bool.and_eq_true, beq_iff_eq] at hc
      show (q.rol, q.skill_name) = (r.rol_actual, sn)
      rw [hc.1, Option.some_inj.mp hc.2]
  have hfilter := filter_eq_find?_toList hlen
  unfold busca_requisito
  cases hfind : skills_roles.find?
      (fun q => q.rol == r.rol_actual && (some q.skill_name == r.skill_name)) with
  | none =>
    rw [hfind] at hfilter
    simp only [Option.toList] at hfilter
    simp [hfilter, fila_con_requisito]
  | some q =>
    rw [hfind] at hfilter
    simp only [Option.toList] at hfilter
    simp [hfilter, fila_con_requisito]

theorem merge_cursos_eq_map {cursos : List Formacion}
    (hn : (cursos.map (fun c => c.skill_name)).Nodup) (necesita : List GapRecord) :
    merge_cursos necesita cursos =
      necesita.map (fun r =>
        fila_rec r (cursos.find? (fun c => some c.skill_name == r.skill_name))) := by
  apply flatMap_eq_map
  intro r _
  have hlen : (cursos.filter (fun c => some c.skill_name == r.skill_name)).length ≤ 1 := by
    cases hrs : r.skill_name with
    | none =>
      have hnil : cursos.filter (fun c => some c.skill_name == none) = [] := by
        rw [List.filter_eq_nil_iff]
        intro c _ hc
        simp at hc
      rw [hnil]
      simp
    | some sn =>
      refine filter_length_le_one_of_nodup_keys (fun c => c.skill_name) hn sn ?_
      intro c hc
      simp only [beq_iff_eq] at hc
      show c.skill_name = sn
      exact Option.some_inj.mp hc
  have hfilter := filter_eq_find?_toList hlen
  cases hfind : cursos.find? (fun c => some c.skill_name == r.skill_name) with
  | none =>
    rw [hfind] at hfilter
    simp only [Option.toList] at hfilter
    simp [hfilter]
  | some c =>
    rw [hfind] at hfilter
    simp only [Option.toList] at hfilter
    simp [hfilter]

/-! ## Membership lemmas for the merges -/

theorem mem_merge_empleados_skills {emps : List Empleado} {srecs : List SkillEmpleado}
    {r1 : FilaEmpSkill} (h : r1 ∈ merge_empleados_skills emps srecs) :
    (∃ e ∈ emps, r1.employee_id = e.employee_id ∧ r1.rol_actual = e.rol_actual) ∧
    ((r1.skill_name = none ∧ r1.skill_level = none) ∨
      ∃ s ∈ srecs, s.employee_id = r1.employee_id ∧ r1.skill_name = some s.skill_name ∧
        r1.skill_level = some s.skill_level) := by
  simp only [merge_empleados_skills, List.mem_flatMap] at h
  obtain ⟨e, he, hr⟩ := h
  by_cases hms : (srecs.filter (fun s => s.employee_id == e.employee_id)).isEmpty = true
  · rw [if_pos hms, List.mem_singleton] at hr
    subst hr
    exact ⟨⟨e, he, rfl, rfl⟩, Or.inl ⟨rfl, rfl⟩⟩
  · rw [if_neg hms, List.mem_map] at hr
    obtain ⟨s, hs, hr⟩ := hr
    subst hr
    rw [List.mem_filter] at hs
    refine ⟨⟨e, he, rfl, rfl⟩, Or.inr ⟨s, hs.1, ?_, rfl, rfl⟩⟩
    simpa using (beq_iff_eq.mp hs.2)

theorem mem_merge_roles {filas : List FilaEmpSkill} {skills_roles : List SkillRol}
    {rc : FilaCompleta} (h : rc ∈ merge_roles filas skills_roles) :
    ∃ r1 ∈ filas, rc.employee_id = r1.employee_id ∧ rc.rol_actual = r1.rol_actual ∧
      rc.skill_name = r1.skill_name ∧ rc.skill_level = r1.skill_level ∧
      ((skills_roles.filter (fun q => q.rol == r1.rol_actual &&
          (some q.skill_name == r1.skill_name)) = [] ∧
        rc.required_level = none ∧ rc.weight = none) ∨
       (∃ q ∈ skills_roles,
          (q.rol == r1.rol_actual && (some q.skill_name == r1.skill_name)) = true ∧
          rc.required_level = some q.required_level ∧ rc.weight = some q.weight)) := by
  simp only [merge_roles, List.mem_flatMap] at h
  obtain ⟨r1, hr1, hr⟩ := h
  by_cases hms : (skills_roles.filter (fun q => q.rol == r1.rol_actual &&
      (some q.skill_name == r1.skill_name))).isEmpty = true
  · rw [if_pos hms, List.mem_singleton] at hr
    subst hr
    refine ⟨r1, hr1, rfl, rfl, rfl, rfl, Or.inl ⟨?_, rfl, rfl⟩⟩
    simpa [List.isEmpty_iff] using hms
  · rw [if_neg hms, List.mem_map] at hr
    obtain ⟨q, hqf, hr⟩ := hr
    subst hr
    rw [List.mem_filter] at hqf
    exact ⟨r1, hr1, rfl, rfl, rfl, rfl, Or.inr ⟨q, hqf.1, hqf.2, rfl, rfl⟩⟩

theorem mem_merge_cursos {necesita : List GapRecord} {cursos : List Formacion}
    {rec : Recomendacion} (h : rec ∈ merge_cursos necesita cursos) :
    ∃ r ∈ necesita, (rec = fila_rec r none ∧
        cursos.filter (fun c => some c.skill_name == r.skill_name) = []) ∨
      ∃ c ∈ cursos, (some c.skill_name == r.skill_name) = true ∧ rec = fila_rec r (some c) := by
  simp only [merge_cursos, List.mem_flatMap] at h
  obtain ⟨r, hrn, hr⟩ := h
  by_cases hms : (cursos.filter (fun c => some c.skill_name == r.skill_name)).isEmpty = true
  · rw [if_pos hms, List.mem_singleton] at hr
    refine ⟨r, hrn, Or.inl ⟨hr, ?_⟩⟩
    simpa [List.isEmpty_iff] using hms
  · rw [if_neg hms, List.mem_map] at hr
    obtain ⟨c, hcf, hr⟩ := hr
    rw [List.mem_filter] at hcf
    exact ⟨r, hrn, Or.inr ⟨c, hcf.1, hcf.2, hr.symm⟩⟩

/-! ## Row-level severity lemmas -/

theorem fila_a_gap_severity (rc : FilaCompleta) :
    (∀ g w, (fila_a_gap rc).gap = some g → (fila_a_gap rc).weight = some w → 0 < g →
        (fila_a_gap rc).gap_severity = g * w) ∧
    (∀ g, (fila_a_gap rc).gap = some g → g ≤ 0 → (fila_a_gap rc).gap_severity = 0) ∧
    ((fila_a_gap rc).gap = none → (fila_a_gap rc).gap_severity = 0) := by
  simp only [fila_a_gap]
  cases hreq : rc.required_level.bind to_numeric with
  | none => simp
  | some a =>
    cases hsk : rc.skill_level.bind to_numeric with
    | none => simp
    | some b =>
      refine ⟨?_, ?_, ?_⟩
      · intro g w hg hw hpos
        rw [Option.some_inj] at hg hw
        subst hg
        subst hw
        exact if_pos hpos
      · intro g hg hle
        rw [Option.some_inj] at hg
        subst hg
        exact if_neg (not_lt.mpr hle)
      · intro hx
        simp at hx

theorem fila_a_gap_severity_nonneg {rc : FilaCompleta}
    (hw : ∀ x, rc.weight.bind to_numeric = some x → 0 ≤ x) :
    0 ≤ (fila_a_gap rc).gap_severity := by
  simp only [fila_a_gap]
  cases hreq : rc.required_level.bind to_numeric with
  | none => simp
  | some a =>
    cases hsk : rc.skill_level.bind to_numeric with
    | none => simp
    | some b =>
      simp only []
      by_cases hpos : 0 < a - b
      · rw [if_pos hpos]
        cases hwv : rc.weight.bind to_numeric with
        | none => simpa using le_of_lt hpos
        | some x => simpa using mul_nonneg (le_of_lt hpos) (hw x hwv)
      · rw [if_neg hpos]

theorem any_map_general {α β : Type} (f : α → β) (p : β → Bool) :
    ∀ l : List α, (l.map f).any p = l.any (fun a => p (f a)) := by
  intro l
  induction l with
  | nil => rfl
  | cons x t ih => simp [List.any_cons, ih]

/-! ## Aggregation bridges -/

theorem gap_positivo_iff (r : GapRecord) :
    gap_positivo r = true ↔ ∃ g, r.gap = some g ∧ 0 < g := by
  unfold gap_positivo
  cases r.gap <;> simp

theorem tiene_gap_serie_eq_any (gaps : List (Option ℚ)) :
    tiene_gap_serie gaps =
      gaps.any (fun g => match g with | some x => decide (0 < x) | none => false) := by
  unfold tiene_gap_serie
  by_cases h : gaps.any (fun g => g.isSome) = true
  · rw [if_pos h]
  · rw [if_neg h]
    rw [eq_comm, List.any_eq_false]
    intro g hg
    rw [Bool.not_eq_true] at h ⊢
    rw [List.any_eq_false] at h
    have := h g hg
    cases g with
    | none => rfl
    | some x => simp at this

/-- Claim-side predicate: the employee has at least one row with a defined
positive gap. -/
def tiene_gap_emp (df : List GapRecord) (e : String) : Bool :=
  df.any fun r => r.employee_id == e && gap_positivo r

theorem tiene_gap_emp_iff (df : List GapRecord) (e : String) :
    tiene_gap_emp df e = true ↔
      ∃ r ∈ df, r.employee_id = e ∧ ∃ g, r.gap = some g ∧ 0 < g := by
  unfold tiene_gap_emp
  rw [List.any_eq_true]
  constructor
  · rintro ⟨r, hr, hb⟩
    rw [Bool.and_eq_true] at hb
    exact ⟨r, hr, beq_iff_eq.mp hb.1, (gap_positivo_iff r).mp hb.2⟩
  · rintro ⟨r, hr, he, hg⟩
    refine ⟨r, hr, ?_⟩
    rw [Bool.and_eq_true, beq_iff_eq]
    exact ⟨he, (gap_positivo_iff r).mpr hg⟩

theorem tiene_gap_serie_eq_emp (df : List GapRecord) (e : String) :
    tiene_gap_serie ((df.filter (fun r => r.employee_id == e)).map (fun r => r.gap)) =
      tiene_gap_emp df e := by
  rw [tiene_gap_serie_eq_any]
  unfold tiene_gap_emp
  rw [any_map_general, List.any_filter]
  rfl

theorem find?_keyed_map {α : Type} [BEq α] [LawfulBEq α] {β : Type} (f : α → β) :
    ∀ (ids : List α) (e : α), e ∈ ids →
      ((ids.map (fun x => (x, f x))).find? (fun q => q.1 == e)) = some (e, f e) := by
  intro ids
  induction ids with
  | nil => intro e he; cases he
  | cons x t ih =>
    intro e he
    rw [List.map_cons]
    by_cases hx : (x == e) = true
    · have hxe : x = e := eq_of_beq hx
      subst hxe
      exact List.find?_cons_of_pos _ (by simp)
    · rw [List.find?_cons_of_neg _ (by simpa using hx)]
      rcases List.mem_cons.1 he with rfl | het
      · exact absurd (beq_iff_eq.mpr rfl) hx
      · exact ih e het

/-! ## Role-summary support lemmas -/

/-- Claim-side: the (possibly repeated) employee ids of the rows carrying a
role. -/
def empleados_de_rol (df : List GapRecord) (rol : String) : List String :=
  (df.filter (fun r => r.rol_actual == rol)).map (fun r => r.employee_id)

theorem mem_pares_iff {df : List GapRecord} {p : String × String} :
    p ∈ drop_duplicates (df.map fun r => (r.employee_id, r.rol_actual)) ↔
      ∃ r ∈ df, r.employee_id = p.1 ∧ r.rol_actual = p.2 := by
  rw [mem_drop_duplicates, List.mem_map]
  constructor
  · rintro ⟨r, hr, hp⟩
    exact ⟨r, hr, by rw [← hp], by rw [← hp]⟩
  · rintro ⟨r, hr, h1, h2⟩
    exact ⟨r, hr, by rw [h1, h2]⟩

/-- The flag stored in a `df_empleados_rol` triple is determined by its id. -/
theorem mem_df_empleados_rol {df : List GapRecord} {t : String × String × Bool}
    (h : t ∈ df_empleados_rol df) :
    (∃ r ∈ df, r.employee_id = t.1 ∧ r.rol_actual = t.2.1) ∧
      t.2.2 = tiene_gap_emp df t.1 := by
  unfold df_empleados_rol at h
  rw [List.mem_map] at h
  obtain ⟨p, hp, ht⟩ := h
  rw [mem_pares_iff] at hp
  obtain ⟨r, hr, h1, h2⟩ := hp
  have hids : p.1 ∈ df.map (fun r => r.employee_id) := by
    rw [List.mem_map]
    exact ⟨r, hr, h1⟩
  have hmem : p.1 ∈ List.insertionSort (· ≤ ·)
      (drop_duplicates (df.map (fun r => r.employee_id))) := by
    rw [(List.perm_insertionSort _ _).mem_iff, mem_drop_duplicates]
    exact hids
  have hfind := find?_keyed_map
    (fun e => tiene_gap_serie ((df.filter (fun r => r.employee_id == e)).map (fun r => r.gap)))
    _ p.1 hmem
  subst ht
  constructor
  · exact ⟨r, hr, h1, h2⟩
  · show ((((empleados_gap df).find? (fun q => q.1 == p.1)).map (fun q => q.2)).getD false) = _
    unfold empleados_gap
    rw [hfind]
    show tiene_gap_serie _ = _
    exact tiene_gap_serie_eq_emp df p.1

theorem df_empleados_rol_flag {df : List GapRecord} {t : String × String × Bool}
    (h : t ∈ df_empleados_rol df) :
    t.2.2 = ((((empleados_gap df).find? (fun q => q.1 == t.1)).map (fun q => q.2)).getD false) := by
  unfold df_empleados_rol at h
  rw [List.mem_map] at h
  obtain ⟨p, _, ht⟩ := h
  subst ht
  rfl

theorem nodup_df_empleados_rol (df : List GapRecord) :
    (df_empleados_rol df).Nodup := by
  unfold df_empleados_rol
  refine List.Nodup.map ?_ (nodup_drop_duplicates _)
  intro p p' h
  have h1 : p.1 = p'.1 := congrArg (fun t => t.1) h
  have h2 : p.2 = p'.2 := congrArg (fun t => t.2.1) h
  exact Prod.ext h1 h2

theorem mem_df_empleados_rol_of {df : List GapRecord} {r : GapRecord} (hr : r ∈ df) :
    (r.employee_id, r.rol_actual,
      ((((empleados_gap df).find? (fun q => q.1 == r.employee_id)).map
        (fun q => q.2)).getD false)) ∈ df_empleados_rol df := by
  unfold df_empleados_rol
  rw [List.mem_map]
  refine ⟨(r.employee_id, r.rol_actual), ?_, rfl⟩
  rw [mem_pares_iff]
  exact ⟨r, hr, rfl, rfl⟩

theorem grp_elem_determined {df : List GapRecord} {rol : String}
    {t t' : String × String × Bool}
    (ht : t ∈ (df_empleados_rol df).filter (fun t => t.2.1 == rol))
    (ht' : t' ∈ (df_empleados_rol df).filter (fun t => t.2.1 == rol))
    (h1 : t.1 = t'.1) : t = t' := by
  rw [List.mem_filter] at ht ht'
  have h2 : t.2.1 = t'.2.1 := by rw [beq_iff_eq.mp ht.2, beq_iff_eq.mp ht'.2]
  have h3 : t.2.2 = t'.2.2 := by
    rw [df_empleados_rol_flag ht.1, df_empleados_rol_flag ht'.1, h1]
  exact Prod.ext h1 (Prod.ext h2 h3)

theorem mem_grp_ids_iff (df : List GapRecord) (rol : String) (e : String) :
    (e ∈ ((df_empleados_rol df).filter (fun t => t.2.1 == rol)).map (fun t => t.1)) ↔
      e ∈ empleados_de_rol df rol := by
  unfold empleados_de_rol
  rw [List.mem_map, List.mem_map]
  constructor
  · rintro ⟨t, ht, rfl⟩
    rw [List.mem_filter] at ht
    obtain ⟨⟨r, hr, h1, h2⟩, _⟩ := mem_df_empleados_rol ht.1
    refine ⟨r, ?_, h1⟩
    rw [List.mem_filter]
    refine ⟨hr, ?_⟩
    rw [beq_iff_eq, h2]
    exact beq_iff_eq.mp ht.2
  · rintro ⟨r, hr, rfl⟩
    rw [List.mem_filter] at hr
    refine ⟨(r.employee_id, r.rol_actual,
      ((((empleados_gap df).find? (fun q => q.1 == r.employee_id)).map
        (fun q => q.2)).getD false)), ?_, rfl⟩
    rw [List.mem_filter]
    exact ⟨mem_df_empleados_rol_of hr.1, hr.2⟩

theorem mem_grp_gap_ids_iff (df : List GapRecord) (rol : String) (e : String) :
    (e ∈ (((df_empleados_rol df).filter (fun t => t.2.1 == rol)).filter
        (fun t => t.2.2 == true)).map (fun t => t.1)) ↔
      (e ∈ empleados_de_rol df rol ∧ tiene_gap_emp df e = true) := by
  rw [List.mem_map]
  constructor
  · rintro ⟨t, ht, rfl⟩
    rw [List.mem_filter] at ht
    obtain ⟨htg, hflag⟩ := ht
    have h2 := (mem_df_empleados_rol (List.mem_of_mem_filter htg)).2
    constructor
    · rw [← mem_grp_ids_iff]
      exact List.mem_map.mpr ⟨t, htg, rfl⟩
    · rw [← h2]
      exact beq_iff_eq.mp hflag
  · rintro ⟨he, htiene⟩
    rw [← mem_grp_ids_iff df rol e, List.mem_map] at he
    obtain ⟨t, ht, rfl⟩ := he
    refine ⟨t, ?_, rfl⟩
    rw [List.mem_filter]
    refine ⟨ht, ?_⟩
    rw [beq_iff_eq, (mem_df_empleados_rol (List.mem_of_mem_filter ht)).2]
    exact htiene

theorem n_empleados_eq (df : List GapRecord) (rol : String) :
    (drop_duplicates (((df_empleados_rol df).filter (fun t => t.2.1 == rol)).map
        (fun t => t.1))).length =
      (empleados_de_rol df rol).toFinset.card := by
  rw [length_drop_duplicates]
  congr 1
  ext e
  rw [List.mem_toFinset, List.mem_toFinset, mem_grp_ids_iff]

theorem n_con_gap_eq (df : List GapRecord) (rol : String) :
    (((df_empleados_rol df).filter (fun t => t.2.1 == rol)).countP
        (fun t => t.2.2 == true)) =
      ((empleados_de_rol df rol).toFinset.filter
        (fun e => tiene_gap_emp df e = true)).card := by
  rw [List.countP_eq_length_filter]
  have hnodup : ((((df_empleados_rol df).filter (fun t => t.2.1 == rol)).filter
      (fun t => t.2.2 == true)).map (fun t => t.1)).Nodup := by
    refine List.Nodup.map_on ?_ (((nodup_df_empleados_rol df).filter _).filter _)
    intro t ht t' ht' h1
    exact grp_elem_determined (List.mem_of_mem_filter ht) (List.mem_of_mem_filter ht') h1
  have hlen : ((((df_empleados_rol df).filter (fun t => t.2.1 == rol)).filter
      (fun t => t.2.2 == true)).map (fun t => t.1)).length =
      (((df_empleados_rol df).filter (fun t => t.2.1 == rol)).filter
        (fun t => t.2.2 == true)).length := List.length_map _ _
  rw [← hlen, ← List.toFinset_card_of_nodup hnodup]
  congr 1
  ext e
  rw [List.mem_toFinset, Finset.mem_filter, List.mem_toFinset, mem_grp_gap_ids_iff]

theorem mem_roles_sorted_of_mem {df : List GapRecord} {r : GapRecord} (hr : r ∈ df) :
    r.rol_actual ∈ List.insertionSort (· ≤ ·)
      (drop_duplicates ((df_empleados_rol df).map fun t => t.2.1)) := by
  rw [(List.perm_insertionSort _ _).mem_iff, mem_drop_duplicates, List.mem_map]
  exact ⟨(r.employee_id, r.rol_actual,
    ((((empleados_gap df).find? (fun q => q.1 == r.employee_id)).map
      (fun q => q.2)).getD false)), mem_df_empleados_rol_of hr, rfl⟩

/-! ## Gap-computation shape lemmas -/

theorem calcular_gaps_eq_map {emps : List Empleado} {reqs : List SkillRol}
    {srecs : List SkillEmpleado}
    (hq : (reqs.map (fun q => (q.rol, q.skill_name))).Nodup) :
    calcular_gaps emps reqs srecs =
      (merge_empleados_skills emps srecs).map
        (fun r1 => fila_a_gap (fila_con_requisito r1 (busca_requisito reqs r1))) := by
  unfold calcular_gaps
  rw [merge_roles_eq_map hq, List.map_map]
  rfl

theorem merge1_proj (emps : List Empleado) (srecs : List SkillEmpleado) :
    (merge_empleados_skills emps srecs).map
        (fun r1 => (r1.employee_id, r1.skill_name, r1.skill_level.bind to_numeric)) =
      emps.flatMap (fun e =>
        if (srecs.filter (fun s => s.employee_id == e.employee_id)).isEmpty then
          [(e.employee_id, (none : Option String), (none : Option ℚ))]
        else (srecs.filter (fun s => s.employee_id == e.employee_id)).map
          (fun s => (e.employee_id, some s.skill_name, to_numeric s.skill_level))) := by
  simp only [merge_empleados_skills]
  rw [List.map_flatMap]
  congr 1
  funext e
  by_cases h : (srecs.filter (fun s => s.employee_id == e.employee_id)).isEmpty = true
  · rw [if_pos h, if_pos h]
    rfl
  · rw [if_neg h, if_neg h, List.map_map]
    rfl

/-! ## Criticality ranking support lemmas -/

theorem mem_severidad_por_skill {df : List GapRecord} {p : String × ℚ}
    (h : p ∈ severidad_por_skill df) :
    (∃ r ∈ df, r.skill_name = some p.1) ∧
    p.2 = ((df.filter (fun r => r.skill_name == some p.1)).map
      (fun r => r.gap_severity)).sum := by
  unfold severidad_por_skill at h
  rw [List.mem_map] at h
  obtain ⟨s, hs, hp⟩ := h
  subst hp
  have hs2 : s ∈ df.filterMap (fun r => r.skill_name) := by
    have hmem := (List.perm_insertionSort (α := String) (· ≤ ·) _).mem_iff.mp hs
    rwa [mem_drop_duplicates] at hmem
  rw [List.mem_filterMap] at hs2
  obtain ⟨r, hr, hrs⟩ := hs2
  exact ⟨⟨r, hr, hrs⟩, rfl⟩

theorem severidad_filter_some (df : List GapRecord) :
    severidad_por_skill (df.filter (fun r => r.skill_name.isSome)) =
      severidad_por_skill df := by
  unfold severidad_por_skill
  have h1 : (df.filter (fun r => r.skill_name.isSome)).filterMap (fun r => r.skill_name) =
      df.filterMap (fun r => r.skill_name) := by
    induction df with
    | nil => rfl
    | cons r t ih =>
      cases hr : r.skill_name with
      | none => simp [List.filter_cons, hr, List.filterMap_cons, ih]
      | some s => simp [List.filter_cons, hr, List.filterMap_cons, ih]
  rw [h1]
  congr 1
  funext s
  have h2 : (df.filter (fun r => r.skill_name.isSome)).filter
      (fun r => r.skill_name == some s) = df.filter (fun r => r.skill_name == some s) := by
    rw [List.filter_filter]
    apply List.filter_congr
    intro r _
    cases hr : r.skill_name <;> simp [hr]
  rw [h2]

/-! ## Concrete fixtures (spec §8 example and counterexample inputs) -/

def empsW : List Empleado :=
  [⟨"E1", "Ana", "Lopez", "Backend"⟩, ⟨"E2", "Luis", "Ruiz", "Backend"⟩]

def reqsW : List SkillRol :=
  [⟨"Backend", "Python", .num 4, .num 2⟩, ⟨"Backend", "SQL", .num 3, .num 1⟩]

def srecsW : List SkillEmpleado :=
  [⟨"E1", "Python", .num 2⟩, ⟨"E1", "SQL", .num 3⟩, ⟨"E2", "Python", .num 5⟩]

def cursosW : List Formacion :=
  [⟨"C1", "Python", "PyLong", "Prov", .num 20, "online"⟩,
   ⟨"C2", "Python", "PyShort", "Prov", .num 10, "online"⟩]

def dfW : List GapRecord := calcular_gaps empsW reqsW srecsW

/-- The E1/Python row of `dfW` (gap 2, weight 2, severity 4). -/
def gW : GapRecord :=
  ⟨"E1", "Ana", "Lopez", "Backend", some "Python", some 2, some 4, some 2, some 2, 4⟩

def empsNeg : List Empleado := [⟨"E1", "Ana", "Lopez", "R"⟩]

def reqsNeg : List SkillRol := [⟨"R", "S", .num 5, .num (-1)⟩]

def reqsUno : List SkillRol := [⟨"R", "S", .num 5, .num 1⟩]

def srecsNeg : List SkillEmpleado := [⟨"E1", "S", .num 2⟩]

def dfNeg : List GapRecord := calcular_gaps empsNeg reqsNeg srecsNeg

/-! ## Claim C1 -/

/-- C1 (counterexample): the claim as stated is false on the code — with a
matched requirement of weight -1 and a positive gap (required 5, recorded 2),
`calcular_gaps` stores severity 3 × (-1) = -3 < 0, so "severity is never
negative for any row" fails. -/
theorem C1_severidad_counterexample :
    ∃ r ∈ calcular_gaps empsNeg reqsNeg srecsNeg, r.gap_severity < 0 := by
  with_unfolding_all decide

/-- C1 (amended): for every row of `calcular_gaps`, severity equals
gap × weight when the gap is defined and positive, and equals 0 when the gap
is undefined or ≤ 0; severity is nonnegative provided every requirement's
numeric weight is nonnegative (without that proviso it can be negative). -/
theorem C1_severidad_calcular_gaps (emps : List Empleado) (reqs : List SkillRol)
    (srecs : List SkillEmpleado) :
    ∀ r ∈ calcular_gaps emps reqs srecs,
      (∀ g w, r.gap = some g → r.weight = some w → 0 < g → r.gap_severity = g * w) ∧
      (∀ g, r.gap = some g → g ≤ 0 → r.gap_severity = 0) ∧
      (r.gap = none → r.gap_severity = 0) ∧
      ((∀ q ∈ reqs, ∀ x, to_numeric q.weight = some x → 0 ≤ x) → 0 ≤ r.gap_severity) := by
  intro r hr
  unfold calcular_gaps at hr
  rw [List.mem_map] at hr
  obtain ⟨rc, hrc, rfl⟩ := hr
  obtain ⟨h1, h2, h3⟩ := fila_a_gap_severity rc
  refine ⟨h1, h2, h3, ?_⟩
  intro hw
  apply fila_a_gap_severity_nonneg
  intro x hx
  obtain ⟨r1, _, _, _, _, _, hcase⟩ := mem_merge_roles hrc
  rcases hcase with ⟨_, _, hwnone⟩ | ⟨q, hq, _, _, hwq⟩
  · rw [hwnone] at hx
    simp at hx
  · rw [hwq] at hx
    rw [Option.some_bind] at hx
    exact hw q hq x hx

/-- C1 (witness): the amended theorem applied to the spec §8 example row. -/
theorem C1_severidad_witness : 0 ≤ gW.gap_severity := by
  refine (C1_severidad_calcular_gaps empsW reqsW srecsW gW
    (by with_unfolding_all decide)).2.2.2 ?_
  intro q hq x hx
  fin_cases hq <;>
    · simp only [to_numeric, Option.some_inj] at hx
      rw [← hx]
      norm_num

/-! ## Claim C2 -/

/-- C2: under the spec's data-model assumption that `(role, skill_name)` is a
unique key in the requirement set, the rows emitted by `calcular_gaps` are
exactly one row per skill record of each employee (carrying that record's
skill name and coerced level), plus exactly one placeholder row with
undefined `skill_name`/`skill_level` per employee with zero skill records;
every row with a defined skill name comes from a record of that employee, so
a required-but-never-recorded skill produces no row at all. -/
theorem C2_filas_calcular_gaps (emps : List Empleado) (reqs : List SkillRol)
    (srecs : List SkillEmpleado)
    (hq : (reqs.map (fun q => (q.rol, q.skill_name))).Nodup) :
    ((calcular_gaps emps reqs srecs).map
        (fun r => (r.employee_id, r.skill_name, r.skill_level)) =
      emps.flatMap (fun e =>
        if (srecs.filter (fun s => s.employee_id == e.employee_id)).isEmpty then
          [(e.employee_id, (none : Option String), (none : Option ℚ))]
        else (srecs.filter (fun s => s.employee_id == e.employee_id)).map
          (fun s => (e.employee_id, some s.skill_name, to_numeric s.skill_level)))) ∧
    (∀ r ∈ calcular_gaps emps reqs srecs, ∀ sn, r.skill_name = some sn →
      ∃ s ∈ srecs, s.employee_id = r.employee_id ∧ s.skill_name = sn) := by
  constructor
  · rw [calcular_gaps_eq_map hq, List.map_map]
    rw [show ((fun r : GapRecord => (r.employee_id, r.skill_name, r.skill_level)) ∘
        (fun r1 => fila_a_gap (fila_con_requisito r1 (busca_requisito reqs r1)))) =
      (fun r1 : FilaEmpSkill =>
        (r1.employee_id, r1.skill_name, r1.skill_level.bind to_numeric))
      from funext fun r1 => rfl]
    exact merge1_proj emps srecs
  · intro r hr sn hsn
    unfold calcular_gaps at hr
    rw [List.mem_map] at hr
    obtain ⟨rc, hrc, rfl⟩ := hr
    obtain ⟨r1, hr1, hid, _, hskill, _, _⟩ := mem_merge_roles hrc
    have hsn1 : r1.skill_name = some sn := by
      rw [← hskill]
      exact hsn
    obtain ⟨_, hcase⟩ := mem_merge_empleados_skills hr1
    rcases hcase with ⟨hnone, _⟩ | ⟨s, hs, hsid, hsname, _⟩
    · rw [hnone] at hsn1
      cases hsn1
    · refine ⟨s, hs, ?_, ?_⟩
      · exact hsid.trans hid.symm
      · rw [hsname] at hsn1
        exact Option.some_inj.mp hsn1

/-- C2 (witness): the characterization applied to the spec §8 example. -/
theorem C2_filas_witness :
    ∃ s ∈ srecsW, s.employee_id = gW.employee_id ∧ s.skill_name = "Python" :=
  (C2_filas_calcular_gaps empsW reqsW srecsW (by decide)).2 gW
    (by with_unfolding_all decide) "Python" (by decide)

/-! ## Claim C3 -/

/-- C3 (counterexample): the claim as stated is false on the code — its
"weight is 1 exactly when no matching RoleRequirement was found" is an iff,
but a matched requirement can itself carry weight 1: with requirement
(R, S, required 5, weight 1) matched to E1's recorded S, the output row has
weight 1 and a matching requirement exists. -/
theorem C3_weight_counterexample :
    ∃ r ∈ calcular_gaps empsNeg reqsUno srecsNeg, r.weight = some 1 ∧
      ∃ q ∈ reqsUno, q.rol = r.rol_actual ∧ some q.skill_name = r.skill_name := by
  with_unfolding_all decide

/-- C3 (amended): for every output row, weight is never undefined, and weight
equals 1 whenever no matching RoleRequirement was found for that row's
(role, skill_name) — but it can also be 1 when a matched requirement carries
weight 1 or an undefined weight. -/
theorem C3_weight_calcular_gaps (emps : List Empleado) (reqs : List SkillRol)
    (srecs : List SkillEmpleado) :
    ∀ r ∈ calcular_gaps emps reqs srecs,
      (∃ w, r.weight = some w) ∧
      ((¬ ∃ q ∈ reqs, q.rol = r.rol_actual ∧ some q.skill_name = r.skill_name) →
        r.weight = some 1) := by
  intro r hr
  unfold calcular_gaps at hr
  rw [List.mem_map] at hr
  obtain ⟨rc, hrc, rfl⟩ := hr
  constructor
  · exact ⟨(rc.weight.bind to_numeric).getD 1, rfl⟩
  · intro hno
    obtain ⟨r1, _, _, hrol, hskill, _, hcase⟩ := mem_merge_roles hrc
    rcases hcase with ⟨_, _, hwnone⟩ | ⟨q, hq, hmatch, _, _⟩
    · show some ((rc.weight.bind to_numeric).getD 1) = some 1
      rw [hwnone]
      rfl
    · exfalso
      apply hno
      rw [Bool.and_eq_true, beq_iff_eq, beq_iff_eq] at hmatch
      refine ⟨q, hq, ?_, ?_⟩
      · show q.rol = rc.rol_actual
        rw [hmatch.1, hrol]
      · show some q.skill_name = rc.skill_name
        rw [hmatch.2, hskill]

/-- C3 (witness): a recorded skill with no requirement at all gets weight 1. -/
theorem C3_weight_witness :
    (⟨"E1", "Ana", "Lopez", "R", some "S", some 2, none, none, some 1, 0⟩ :
      GapRecord).weight = some 1 := by
  refine (C3_weight_calcular_gaps empsNeg [] srecsNeg _
    (by with_unfolding_all decide)).2 ?_
  rintro ⟨q, hq, _⟩
  simp at hq

/-! ## Claim C4 -/

/-- C4: every role in the gap table gets a summary row; an employee "has a
gap" iff one of their rows has a defined positive gap; and each summary row
reports the distinct-employee count of its role, `percent_with_gap =
round(100 × employees_with_gap / employee_count, 1)`, and `avg_severity` as
the mean of severity over all of the role's rows (zero-severity rows
included). -/
theorem C4_resumen_por_rol (df : List GapRecord) :
    (∀ r ∈ df, ∃ s ∈ resumen_por_rol df, s.rol_actual = r.rol_actual) ∧
    (∀ e, tiene_gap_emp df e = true ↔
      ∃ r ∈ df, r.employee_id = e ∧ ∃ g, r.gap = some g ∧ 0 < g) ∧
    (∀ s ∈ resumen_por_rol df,
      s.n_empleados = (empleados_de_rol df s.rol_actual).toFinset.card ∧
      s.n_con_gap = ((empleados_de_rol df s.rol_actual).toFinset.filter
        (fun e => tiene_gap_emp df e = true)).card ∧
      s.porcentaje_con_gap = round1
        (100 * (((empleados_de_rol df s.rol_actual).toFinset.filter
          (fun e => tiene_gap_emp df e = true)).card : ℚ) /
          ((empleados_de_rol df s.rol_actual).toFinset.card : ℚ)) ∧
      s.gap_severity_promedio =
        ((df.filter (fun r => r.rol_actual == s.rol_actual)).map
          (fun r => r.gap_severity)).sum /
        (((df.filter (fun r => r.rol_actual == s.rol_actual)).length : ℚ))) := by
  refine ⟨?_, tiene_gap_emp_iff df, ?_⟩
  · intro r hr
    refine ⟨resumen_de_rol df r.rol_actual, ?_, rfl⟩
    unfold resumen_por_rol
    exact List.mem_map_of_mem _ (mem_roles_sorted_of_mem hr)
  · intro s hs
    unfold resumen_por_rol at hs
    rw [List.mem_map] at hs
    obtain ⟨rol, _, rfl⟩ := hs
    simp only [show (resumen_de_rol df rol).rol_actual = rol from rfl]
    refine ⟨?_, ?_, ?_, ?_⟩
    · exact n_empleados_eq df rol
    · exact n_con_gap_eq df rol
    · show round1 (((((df_empleados_rol df).filter (fun t => t.2.1 == rol)).countP
        (fun t => t.2.2 == true) : ℚ)) /
        (((drop_duplicates (((df_empleados_rol df).filter (fun t => t.2.1 == rol)).map
          (fun t => t.1))).length : ℚ)) * 100) = _
      rw [n_empleados_eq df rol, n_con_gap_eq df rol]
      congr 1
      ring
    · show (((df.filter (fun r => r.rol_actual == rol)).map (fun r => r.gap_severity)).sum /
        ((((df.filter (fun r => r.rol_actual == rol)).map
          (fun r => r.gap_severity)).length : ℚ))) = _
      rw [List.length_map]

/-- C4 (witness): the coverage conjunct applied to the spec §8 example. -/
theorem C4_resumen_witness : ∃ s ∈ resumen_por_rol dfW, s.rol_actual = "Backend" :=
  (C4_resumen_por_rol dfW).1 gW (by with_unfolding_all decide)

/-! ## Recommender support lemmas -/

/-- The recommender's output is a permutation of the qualifying rows each
augmented with the unique per-skill course lookup. -/
theorem recomendaciones_formacion_perm (df : List GapRecord) (formaciones : List Formacion) :
    (recomendaciones_formacion df formaciones).2.Perm
      ((df.filter gap_positivo).map (fun r => fila_rec r
        ((primera_por_skill (List.insertionSort dur_le (formaciones.map coerce_duration))).find?
          (fun c => some c.skill_name == r.skill_name)))) := by
  unfold recomendaciones_formacion
  by_cases h : (df.filter gap_positivo).isEmpty = true
  · rw [if_pos h]
    rw [List.isEmpty_iff] at h
    rw [h]
    rfl
  · rw [if_neg h]
    refine (List.perm_insertionSort rec_le _).trans ?_
    rw [merge_cursos_eq_map (nodup_skills_primera_por_skill _)]

/-! ## Claim C6 -/

/-- C6: the Training Recommender's output has exactly one row per gap record
with a defined positive gap — its rows are a permutation of the qualifying
rows, each augmented with the (unique) chosen course for its skill; every
output row has a defined positive gap; a qualifying row whose skill has no
course keeps null course fields instead of being dropped; and when nothing
qualifies the result is the empty table (of the fixed record type). -/
theorem C6_recomendaciones (df : List GapRecord) (formaciones : List Formacion) :
    ((df.filter gap_positivo).isEmpty = true →
      (recomendaciones_formacion df formaciones).2 = []) ∧
    ((recomendaciones_formacion df formaciones).2.Perm
      ((df.filter gap_positivo).map (fun r => fila_rec r
        ((primera_por_skill (List.insertionSort dur_le (formaciones.map coerce_duration))).find?
          (fun c => some c.skill_name == r.skill_name))))) ∧
    (∀ rec ∈ (recomendaciones_formacion df formaciones).2, ∃ g, rec.gap = some g ∧ 0 < g) ∧
    (∀ rec ∈ (recomendaciones_formacion df formaciones).2,
      (∀ c ∈ formaciones, some c.skill_name ≠ rec.skill_name) →
      rec.course_id = none ∧ rec.course_name = none ∧ rec.provider = none ∧
        rec.duration_hours = none ∧ rec.modality = none) := by
  have hperm := recomendaciones_formacion_perm df formaciones
  refine ⟨?_, hperm, ?_, ?_⟩
  · intro h
    unfold recomendaciones_formacion
    rw [if_pos h]
  · intro rec hrec
    have hrec2 := hperm.mem_iff.mp hrec
    rw [List.mem_map] at hrec2
    obtain ⟨r, hr, rfl⟩ := hrec2
    rw [List.mem_filter] at hr
    obtain ⟨g, hg, hgpos⟩ := (gap_positivo_iff r).mp hr.2
    exact ⟨g, hg, hgpos⟩
  · intro rec hrec hnoc
    have hrec2 := hperm.mem_iff.mp hrec
    rw [List.mem_map] at hrec2
    obtain ⟨r, hr, rfl⟩ := hrec2
    cases hfind : (primera_por_skill
        (List.insertionSort dur_le (formaciones.map coerce_duration))).find?
        (fun c => some c.skill_name == r.skill_name) with
    | none =>
      exact ⟨rfl, rfl, rfl, rfl, rfl⟩
    | some c =>
      exfalso
      have hc := List.mem_of_find?_eq_some hfind
      have hcp := List.find?_some hfind
      have hc2 : c ∈ formaciones.map coerce_duration :=
        (List.perm_insertionSort dur_le _).mem_iff.mp
          (mem_primera_por_skill hc)
      rw [List.mem_map] at hc2
      obtain ⟨c0, hc0, rfl⟩ := hc2
      refine hnoc c0 hc0 ?_
      have : some (coerce_duration c0).skill_name = r.skill_name := beq_iff_eq.mp hcp
      exact this
  
/-- C6 (witness): with no qualifying gap rows the recommender returns the
empty table. -/
theorem C6_recomendaciones_witness : (recomendaciones_formacion [] cursosW).2 = [] :=
  (C6_recomendaciones [] cursosW).1 (by decide)

/-! ## Claim C8 -/

theorem set_col_cols_mem {fr : Frame} {c2 : String} {f : List (String × Value) → Value}
    (c : String) (h : c ∈ fr.cols) : c ∈ (set_col fr c2 f).cols := by
  unfold set_col
  split
  · exact h
  · exact List.mem_append_left _ h

def cursosTexto : List Formacion :=
  [⟨"C9", "S", "Curso", "Prov", .str "ten hours", "online"⟩]

/-- C9 (counterexample): the claim as stated is false on the code — line 186
writes the coerced `duration_hours` back into the input `formaciones` table,
so when a gap row qualifies and a course carries a non-numeric duration, the
Courses input observably changes (the text becomes NaN). -/
theorem C9_pureza_counterexample :
    (recomendaciones_formacion dfNeg cursosTexto).1 ≠ cursosTexto := by
  with_unfolding_all decide

/-- C9 (amended): `recomendaciones_formacion` leaves the Courses input
unchanged when no gap row qualifies (the early return precedes line 186) or
when every duration cell is already numeric or NaN; in general the final
state of Courses is its duration-coerced image whenever some row qualifies.
The other components build only new tables and are modelled as plain pure
functions. -/
theorem C9_mutacion_cursos (df : List GapRecord) (formaciones : List Formacion) :
    ((df.filter gap_positivo).isEmpty = true →
      (recomendaciones_formacion df formaciones).1 = formaciones) ∧
    ((∀ c ∈ formaciones, coerce_duration c = c) →
      (recomendaciones_formacion df formaciones).1 = formaciones) ∧
    (recomendaciones_formacion df formaciones).1 =
      (if (df.filter gap_positivo).isEmpty then formaciones
       else formaciones.map coerce_duration) := by
  refine ⟨?_, ?_, ?_⟩
  · intro h
    unfold recomendaciones_formacion
    rw [if_pos h]
  · intro hid
    unfold recomendaciones_formacion
    by_cases h : (df.filter gap_positivo).isEmpty = true
    · rw [if_pos h]
    · rw [if_neg h]
      show formaciones.map coerce_duration = formaciones
      calc formaciones.map coerce_duration = formaciones.map id := List.map_congr_left hid
        _ = formaciones := List.map_id _
  · unfold recomendaciones_formacion
    by_cases h : (df.filter gap_positivo).isEmpty = true
    · rw [if_pos h, if_pos h]
    · rw [if_neg h, if_neg h]

/-- C9 (witness): with all-numeric durations the Courses input is returned
unchanged. -/
theorem C9_mutacion_witness : (recomendaciones_formacion dfNeg cursosW).1 = cursosW := by
  refine (C9_mutacion_cursos dfNeg cursosW).2.1 ?_
  intro c hc
  fin_cases hc <;> rfl

/-! ## Claim C10 -/

/-- C10: the Critical Skill Ranker only ranks defined skills — every ranked
skill comes from a row whose `skill_name` is defined, the placeholder rows
(undefined skill) always carry severity 0, and dropping them changes nothing:
the ranking over the gap table equals the ranking over the table restricted
to rows with a defined skill. -/
theorem C10_ranking_sin_placeholder (emps : List Empleado) (reqs : List SkillRol)
    (srecs : List SkillEmpleado) (n : ℕ) :
    (∀ p ∈ skills_mas_criticas (calcular_gaps emps reqs srecs) n,
      ∃ r ∈ calcular_gaps emps reqs srecs, r.skill_name = some p.1) ∧
    (∀ r ∈ calcular_gaps emps reqs srecs, r.skill_name = none → r.gap_severity = 0) ∧
    skills_mas_criticas (calcular_gaps emps reqs srecs) n =
      skills_mas_criticas ((calcular_gaps emps reqs srecs).filter
        (fun r => r.skill_name.isSome)) n := by
  refine ⟨?_, ?_, ?_⟩
  · intro p hp
    have hp2 : p ∈ List.insertionSort sev_desc
        (severidad_por_skill (calcular_gaps emps reqs srecs)) :=
      List.mem_of_mem_take hp
    rw [(List.perm_insertionSort sev_desc _).mem_iff] at hp2
    exact (mem_severidad_por_skill hp2).1
  · intro r hr hnone
    unfold calcular_gaps at hr
    rw [List.mem_map] at hr
    obtain ⟨rc, hrc, rfl⟩ := hr
    obtain ⟨r1, hr1, _, _, hskill, hlevel, _⟩ := mem_merge_roles hrc
    have hrc_none : rc.skill_name = none := hnone
    have h1none : r1.skill_name = none := by rw [← hskill]; exact hrc_none
    obtain ⟨_, hcase⟩ := mem_merge_empleados_skills hr1
    rcases hcase with ⟨_, hlev_none⟩ | ⟨s, _, _, hsname, _⟩
    · have hrc_lev : rc.skill_level = none := by rw [hlevel, hlev_none]
      have hgap : (fila_a_gap rc).gap = none := by
        simp only [fila_a_gap, hrc_lev, Option.none_bind]
        cases rc.required_level.bind to_numeric <;> rfl
      exact (fila_a_gap_severity rc).2.2 hgap
    · rw [hsname] at h1none
      cases h1none
  · unfold skills_mas_criticas
    rw [severidad_filter_some]

def empsSolo : List Empleado := [⟨"E3", "Eva", "Sanz", "Backend"⟩]

/-- C10 (witness): the placeholder row of an employee with no skill records
carries severity 0, so dropping it from the ranking changes nothing. -/
theorem C10_ranking_witness :
    (⟨"E3", "Eva", "Sanz", "Backend", none, none, none, none, some 1, 0⟩ :
      GapRecord).gap_severity = 0 :=
  (C10_ranking_sin_placeholder empsSolo reqsW [] 10).2.1 _
    (by with_unfolding_all decide) rfl
